import Mathlib

/-!
Verification development for the lifeORGS Automatic Task Scheduling Engine.

The definitions below are a shallow embedding of the scheduling code in
`calendarORGS/scheduling/eventScheduler.py` and
`utils/timeUtilitities/timeUtil.py`.  The database tables (`tasks`,
`events`, `blocks`) are embedded as lists of records, SQL filters as list
filters, and the engine's reads of the system clock as an explicit `now`
parameter.  The week-start collaborator `deltaToStartOfWeek` (calendar
arithmetic, out of the engine's scope) is passed in as an explicit integer
parameter `wd`, exactly the number the Python code consumes.  All times
are integers (Unix seconds); scores are exact rationals.
-/

namespace LifeORGS

/-- Row of the `tasks` table: `(task, unixtime, urgency, scheduled, dueDate, completed)`.
`unixtime` is the estimated duration in seconds. -/
structure TaskRow where
  task : String
  unixtime : Int
  urgency : Int
  scheduled : Bool
  dueDate : Int
  completed : Bool
deriving Repr, DecidableEq

/-- Row of the `events` table:
`(event, description, unixtimeStart, unixtimeEnd, task, completed)`.
The two trailing booleans are stored as the integers 0/1, as sqlite does. -/
structure EventRow where
  event : String
  description : String
  unixtimeStart : Int
  unixtimeEnd : Int
  task : Int
  completed : Int
deriving Repr, DecidableEq

/-- Row of the `blocks` table: `(timeStart, timeEnd)`, offsets in seconds
from the start of the week. -/
structure BlockRow where
  timeStart : Int
  timeEnd : Int
deriving Repr, DecidableEq

/-- The task dictionary built by `Scheduler._giveTasks`:
`{iD, dueDate, urgency, taskTime}` before the priority score is attached. -/
structure TaskDict where
  iD : String
  dueDate : Int
  urgency : Int
  taskTime : Int
deriving Repr, DecidableEq

/-- The task dictionary after `_giveTasks` attaches `priorityScore`. -/
structure ScoredTask where
  iD : String
  dueDate : Int
  urgency : Int
  taskTime : Int
  priorityScore : ℚ
deriving Repr, DecidableEq

/-- The time-slot dictionary built by `Scheduler._findAvailableTimeSlots`:
`{blockTime, blockStart, blockEnd}`. -/
structure TimeSlot where
  blockTime : Int
  blockStart : Int
  blockEnd : Int
deriving Repr, DecidableEq

/-- The three database tables the engine reads and writes. -/
structure DB where
  tasks : List TaskRow
  events : List EventRow
  blocks : List BlockRow
deriving Repr, DecidableEq

/-- Errors a scheduling run can raise: `IndexError` from `time[1]` on a
one-token horizon string, `ValueError` from `int()` on a non-integer
token, and the `Exception("Invalid time format")` raised by `timeOut`. -/
inductive PyErr where
  | indexError
  | valueError
  | invalidTimeFormat
deriving Repr, DecidableEq

/-- Overdue-urgency escalation, the `if timeDueDelta < 0` chain at the top
of `Scheduler._calculatePriorityScore` (eventScheduler.py lines 89-99).
The input dictionary's `urgency` field is replaced by this value. -/
def escalateUrgency (urgency : Int) (timeDueDelta : Int) : Int :=
  if timeDueDelta < 0 then
    if timeDueDelta ≥ -86400 ∧ urgency + 1 ≤ 5 then urgency + 1
    else if timeDueDelta ≥ -172800 ∧ urgency + 2 ≤ 5 then urgency + 2
    else if timeDueDelta ≥ -259200 ∧ urgency + 3 ≤ 5 then urgency + 3
    else if timeDueDelta ≥ -345600 ∧ urgency + 4 ≤ 5 then urgency + 4
    else 5
  else urgency

/-- Deadline-proximity component of the priority score, the
`match timeDueDelta` block of `_calculatePriorityScore` (lines 101-124).
The guards are tried top to bottom, so each arm covers one day bucket. -/
def deadlineComponent (timeDueDelta : Int) : ℚ :=
  if timeDueDelta ≤ 86400 then 35
  else if timeDueDelta ≤ 172800 then 30 - 70 / 8
  else if timeDueDelta ≤ 259200 then 30 - 105 / 8
  else if timeDueDelta ≤ 345600 then 30 - 140 / 8
  else if timeDueDelta ≤ 432000 then 30 - 175 / 8
  else if timeDueDelta ≤ 518400 then 30 - 210 / 8
  else if timeDueDelta ≤ 604800 then 30 - 245 / 8
  else 0

/-- User-urgency component of the priority score, the
`match task['urgency']` block (lines 126-140).  A level outside the five
listed literals matches no case and contributes nothing. -/
def urgencyComponent (urgency : Int) : ℚ :=
  if urgency = 1 then 0
  else if urgency = 2 then 12.5
  else if urgency = 3 then 25
  else if urgency = 4 then 37.5
  else if urgency = 5 then 50
  else 0

/-- Duration bonus of the priority score, the `match task['taskTime']`
block (lines 142-159). -/
def durationComponent (taskTime : Int) : ℚ :=
  if taskTime ≤ 300 then 15
  else if taskTime ≤ 900 then 12
  else if taskTime ≤ 1800 then 9
  else if taskTime ≤ 3600 then 6
  else if taskTime ≤ 7200 then 3
  else 0

/-- `Scheduler._calculatePriorityScore`.  The Python function mutates
`task['urgency']` (overdue escalation) before summing the three score
components and returns the score; here it returns the updated dictionary
together with the score. -/
def calculatePriorityScore (task : TaskDict) (now : Int) : TaskDict × ℚ :=
  let timeDueDelta := task.dueDate - now
  let newUrgency := escalateUrgency task.urgency timeDueDelta
  let priorityScore :=
    deadlineComponent timeDueDelta + urgencyComponent newUrgency +
      durationComponent task.taskTime
  ({ task with urgency := newUrgency }, priorityScore)

/-- Worker for `pySplit`: cut the character list at every space,
accumulating the current token in reverse. -/
def pySplitAux : List Char → List Char → List String
  | [], acc => [String.mk acc.reverse]
  | c :: rest, acc =>
    if c = ' ' then String.mk acc.reverse :: pySplitAux rest []
    else pySplitAux rest (c :: acc)

/-- Python `str.split(" ")`: one token per maximal run between single
space separators, so consecutive spaces yield empty tokens and the
result is never empty. -/
def pySplit (s : String) : List String :=
  pySplitAux s.toList []

/-- Numeric value of `0`-`9`, `none` for any other character. -/
def digitVal (c : Char) : Option Nat :=
  if '0' ≤ c ∧ c ≤ '9' then some (c.toNat - '0'.toNat) else none

/-- ASCII whitespace, the characters Python strips around a numeric
literal (restricted to ASCII, see `pyInt`). -/
def isPySpace (c : Char) : Bool :=
  c = ' ' ∨ c = '\t' ∨ c = '\n' ∨ c = '\r' ∨ c = '\x0b' ∨ c = '\x0c'

/-- Strip leading and trailing ASCII whitespace from a character list. -/
def pyStrip (cs : List Char) : List Char :=
  ((cs.dropWhile isPySpace).reverse.dropWhile isPySpace).reverse

/-- Digits after the first one: each further digit may be preceded by a
single underscore, as in Python numeric literals (`1_4` is 14, while
`1__4`, `_14` and `14_` are rejected). -/
def parseDigitTail : List Char → Nat → Option Nat
  | [], acc => some acc
  | '_' :: c :: rest, acc =>
    match digitVal c with
    | some d => parseDigitTail rest (acc * 10 + d)
    | none => none
  | ['_'], _ => none
  | c :: rest, acc =>
    match digitVal c with
    | some d => parseDigitTail rest (acc * 10 + d)
    | none => none

/-- Decimal value of a nonempty digit sequence with optional single
underscores between digits. -/
def parseDigits : List Char → Option Nat
  | [] => none
  | c :: rest =>
    match digitVal c with
    | some d => parseDigitTail rest d
    | none => none

/-- Python `int(str)`: surrounding whitespace is stripped, then an
optional sign precedes decimal digits with single underscores allowed
between them; `none` models the `ValueError` the builtin raises
otherwise.  The model is restricted to ASCII: CPython also strips
Unicode whitespace and accepts non-ASCII decimal digits, so `pyInt` can
return `none` on a string the builtin accepts.  Whenever `pyInt` returns
`some n` the builtin returns the same `n`, and no theorem in this file
depends on `pyInt` returning `none`: the horizon-rejection theorem below
rests only on the unit-token test, which the program decides before
calling `int()`. -/
def pyInt (s : String) : Option Int :=
  match pyStrip s.toList with
  | '-' :: rest => (parseDigits rest).map fun n => -(n : Int)
  | '+' :: rest => (parseDigits rest).map fun n => (n : Int)
  | cs => (parseDigits cs).map fun n => (n : Int)

/-- `timeOut` from `utils/timeUtilitities/timeUtil.py` (lines 276-309):
split the string on single spaces, demand the second token be `D`, and
convert the first token to days.  A missing second token is Python's
`IndexError`, a non-integer first token its `ValueError`, any other
second token the raised `Exception("Invalid time format")`. -/
def timeOut (timeString : String) : Except PyErr Int :=
  match (pySplit timeString)[1]? with
  | none => .error .indexError
  | some unit =>
    if unit = "D" then
      match pyInt ((pySplit timeString).headD "") with
      | some n => .ok (n * 86400)
      | none => .error .valueError
    else .error .invalidTimeFormat

/-- `Scheduler.giveEvents` (minus table creation): the SQL filter
`unixtimeEnd > currentTime AND unixtimeStart < currentTime + timeForecast`,
after `timeOut` has converted the horizon string.  A bad horizon string
propagates the raised error. -/
def giveEvents (events : List EventRow) (timeForecast : String) (now : Int) :
    Except PyErr (List EventRow) :=
  match timeOut timeForecast with
  | .error e => .error e
  | .ok tf =>
    .ok (events.filter fun e =>
      now < e.unixtimeEnd && e.unixtimeStart < now + tf)

/-- `Scheduler._giveTasks`: select rows with `scheduled = 0 AND
completed = 0`, build the `{iD, dueDate, urgency, taskTime}` dictionary
from columns `(task, dueDate, urgency, unixtime)`, run the priority
scorer on it, and attach the returned score. -/
def giveTasks (tasks : List TaskRow) (now : Int) : List ScoredTask :=
  (tasks.filter fun t => !t.scheduled && !t.completed).map fun t =>
    let d : TaskDict :=
      { iD := t.task, dueDate := t.dueDate, urgency := t.urgency, taskTime := t.unixtime }
    let r := calculatePriorityScore d now
    { iD := r.1.iD, dueDate := r.1.dueDate, urgency := r.1.urgency,
      taskTime := r.1.taskTime, priorityScore := r.2 }

/-- `Scheduler._giveBlocks`: select block rows with
`timeEnd > weekSecDelta` and project both offsets onto the current week
by adding `startOfWeek = now - weekSecDelta`.  `wd` is the value the
`deltaToStartOfWeek` collaborator returned for `now`. -/
def giveBlocks (blocks : List BlockRow) (now wd : Int) : List (Int × Int) :=
  let startOfWeek := now - wd
  (blocks.filter fun b => wd < b.timeEnd).map fun b =>
    (b.timeStart + startOfWeek, b.timeEnd + startOfWeek)

/-- Python `list.remove(x)` on a list of integers: drop the first
occurrence of the value `x`. -/
def removeFirst (x : Int) : List Int → List Int
  | [] => []
  | a :: rest => if a = x then rest else a :: removeFirst x rest

/-- The field-stripping loop of `Scheduler._getSchedulingData`: the two
`event.remove(event[0])` calls always delete the leading name and
description (the first occurrence of the value at index 0 is index 0
itself), after which the two `event.remove(event[2])` calls delete the
first occurrences of the values found at index 2 of
`[start, end, task, completed]` and of the 3-element remainder.  In the
generic case this leaves `[start, end]`; the value-based `remove`
semantics is kept because a flag value can collide with a timestamp. -/
def reduceEvent (e : EventRow) : Int × Int :=
  let l0 : List Int := [e.unixtimeStart, e.unixtimeEnd, e.task, e.completed]
  let l1 := removeFirst (l0.getD 2 0) l0
  let l2 := removeFirst (l1.getD 2 0) l1
  (l2.getD 0 0, l2.getD 1 0)

/-- `Scheduler._getSchedulingData`: gather tasks, in-horizon events and
projected blocks, sort the tasks by `priorityScore` descending (Python's
`sort(key=..., reverse=True)`), append the reduced events to the blocks
and sort the combined list chronologically by start.  Python's sort is
stable, so any stable sort sees the same output; the development uses
`List.insertionSort`, which Mathlib proves stable. -/
def getSchedulingData (db : DB) (timeForecast : String) (now wd : Int) :
    Except PyErr (List ScoredTask × List (Int × Int)) :=
  let tasks := giveTasks db.tasks now
  match giveEvents db.events timeForecast now with
  | .error e => .error e
  | .ok events =>
    let blocks := giveBlocks db.blocks now wd
    let tasksSorted :=
      tasks.insertionSort fun a b => b.priorityScore ≤ a.priorityScore
    let combined := blocks ++ events.map reduceEvent
    let blocksSorted := combined.insertionSort fun a b => a.1 ≤ b.1
    .ok (tasksSorted, blocksSorted)

/-- `Scheduler._findAvailableTimeSlots`: for each adjacent pair of
occupied intervals compute `delta = next.start - cur.end`; when
`delta > 600` emit the slot
`{blockTime := delta - 600, blockStart := cur.end + 300,
blockEnd := next.start - 300}`.  The last interval (`n = len - 1`) emits
nothing. -/
def findAvailableTimeSlots : List (Int × Int) → List TimeSlot
  | [] => []
  | [_] => []
  | a :: b :: rest =>
    (if b.1 - a.2 > 600 then
      [{ blockTime := b.1 - a.2 - 600, blockStart := a.2 + 300, blockEnd := b.1 - 300 }]
    else []) ++ findAvailableTimeSlots (b :: rest)

/-- Modelled from the spec (4.3 Free-Slot Finder), for comparison with
`findAvailableTimeSlots`: one slot per adjacent pair of occupied
intervals whose gap exceeds 600 seconds, spanning the gap with a
300-second buffer trimmed from each side, and nothing else. -/
def slotsFromGapsSpec (blocks : List (Int × Int)) : List TimeSlot :=
  (blocks.zip blocks.tail).filterMap fun p =>
    if p.2.1 - p.1.2 > 600 then
      some { blockTime := p.2.1 - p.1.2 - 600, blockStart := p.1.2 + 300,
             blockEnd := p.2.1 - 300 }
    else none

/-- Inner loop of `Scheduler._assignTasksToSlots`: scan the slots in
order for the first one with `blockTime > taskTime`; on a match return
the event bounds the code computes -
`taskStart = blockStart`, `taskEnd = blockEnd + taskTime` (lines 372-373)
- together with the slot list after the in-place shrink
`blockStart := blockStart + taskTime + 300` (line 387). -/
def placeTask (t : ScoredTask) : List TimeSlot → Option (Int × Int × List TimeSlot)
  | [] => none
  | s :: rest =>
    if s.blockTime > t.taskTime then
      some (s.blockStart, s.blockEnd + t.taskTime,
        { s with blockStart := s.blockStart + t.taskTime + 300 } :: rest)
    else
      match placeTask t rest with
      | some (a, b, rest') => some (a, b, s :: rest')
      | none => none

/-- `Scheduler._assignTasksToSlots`: first-fit over tasks in list order.
Each placed task appends one event row
`(iD, description, taskStart, taskEnd, 1, 0)` and is added to the
returned `scheduledTasks`; a task no slot fits is skipped.  Returns
`(scheduledTasks, final slots, inserted event rows)`.  The
human-readable description built from `toShortHumanTime`/`toHumanHour`
(out-of-scope calendar formatting) is supplied by the `descr`
parameter. -/
def assignTasksToSlots (descr : ScoredTask → String) :
    List ScoredTask → List TimeSlot → List ScoredTask × List TimeSlot × List EventRow
  | [], slots => ([], slots, [])
  | t :: ts, slots =>
    match placeTask t slots with
    | some (taskStart, taskEnd, slots') =>
      let r := assignTasksToSlots descr ts slots'
      (t :: r.1, r.2.1,
        { event := t.iD, description := descr t, unixtimeStart := taskStart,
          unixtimeEnd := taskEnd, task := 1, completed := 0 } :: r.2.2)
    | none => assignTasksToSlots descr ts slots

/-- Write-back of one scheduling run: the `INSERT INTO events` rows are
appended to the events table and
`UPDATE tasks SET scheduled = 1 WHERE task = ?` flips every task row
whose name was placed. -/
def applyAssignment (db : DB)
    (r : List ScoredTask × List TimeSlot × List EventRow) : DB :=
  let schedIDs := r.1.map fun t => t.iD
  { db with
    events := db.events ++ r.2.2,
    tasks := db.tasks.map fun t =>
      if schedIDs.contains t.task then { t with scheduled := true } else t }

/-- `Scheduler.scheduleTasks`: run `_getSchedulingData`, then
`_findAvailableTimeSlots`, then `_assignTasksToSlots`, committing the
writes.  The Python function has no `return` statement, so the
`scheduledTasks` list computed by the assigner is discarded and the
caller receives `None`; accordingly only the updated store appears in
the result type. -/
def scheduleTasks (descr : ScoredTask → String) (db : DB)
    (timeForecast : String) (now wd : Int) : Except PyErr DB :=
  match getSchedulingData db timeForecast now wd with
  | .error e => .error e
  | .ok (tasks, blocks) =>
    let availableTime := findAvailableTimeSlots blocks
    .ok (applyAssignment db (assignTasksToSlots descr tasks availableTime))

/-- Two intervals claim a common second when their intersection has
positive length. -/
def overlaps (a b : Int × Int) : Prop :=
  max a.1 b.1 < min a.2 b.2

instance (a b : Int × Int) : Decidable (overlaps a b) :=
  inferInstanceAs (Decidable (max a.1 b.1 < min a.2 b.2))

/-- Description stub used in concrete runs. -/
def descr0 : ScoredTask → String := fun _ => ""

/-- Store for the end-to-end scenario: availability block Monday
09:00-17:00 (offsets 28800-57600), no events, Task A (urgency 5,
duration 3600 s, due in 1 day) and Task B (urgency 2, duration 1800 s,
due in 10 days); the run is made at the start of the week (`now = 0`,
`wd = 0`). -/
def db3 : DB :=
  { tasks := [{ task := "A", unixtime := 3600, urgency := 5, scheduled := false,
                dueDate := 86400, completed := false },
              { task := "B", unixtime := 1800, urgency := 2, scheduled := false,
                dueDate := 864000, completed := false }],
    events := [],
    blocks := [{ timeStart := 28800, timeEnd := 57600 }] }

/-- Store with two availability blocks separated by a 1200 s gap and one
short task, so that a scheduling run actually places something. -/
def db4 : DB :=
  { tasks := [{ task := "T", unixtime := 300, urgency := 3, scheduled := false,
                dueDate := 777600, completed := false }],
    events := [],
    blocks := [{ timeStart := 0, timeEnd := 1000 },
               { timeStart := 2200, timeEnd := 3000 }] }

/-- C1.  The Task Assigner's event start and the in-place slot shrink
match the claim, but the created event's end time is
`slot.blockEnd + task.duration`, not `slot.blockStart + task.duration`:
a 300 s task placed in the slot (duration 600, span 1300-1900) yields the
event row `(1300, 2200)` where the claim requires `(1300, 1600)`, while
the slot is left as span 1900-1900 (start advanced by 300 + 300, end
unchanged). -/
theorem assign_taskEnd_from_blockEnd :
    assignTasksToSlots descr0
        [{ iD := "T", dueDate := 777600, urgency := 3, taskTime := 300, priorityScore := 40 }]
        [{ blockTime := 600, blockStart := 1300, blockEnd := 1900 }] =
      ([{ iD := "T", dueDate := 777600, urgency := 3, taskTime := 300, priorityScore := 40 }],
       [{ blockTime := 600, blockStart := 1900, blockEnd := 1900 }],
       [{ event := "T", description := "", unixtimeStart := 1300, unixtimeEnd := 2200,
          task := 1, completed := 0 }]) ∧
    (2200 : Int) ≠ 1300 + 300 :=
  ⟨rfl, by decide⟩


/-- C2.  The assigner never updates a slot's stored `blockTime` when it
shrinks the slot, and computes event ends from `blockEnd`, so the claimed
invariants fail: placing two 1900 s tasks into one slot of duration 4000
(span 0-4000) leaves the slot with start 4400 past its end 4000 (negative
remaining duration) and creates the events `(0, 5900)` and `(2200, 5900)`,
which assign the seconds 2200-5900 to both tasks. -/
theorem assign_double_books :
    assignTasksToSlots descr0
        [{ iD := "T1", dueDate := 777600, urgency := 3, taskTime := 1900, priorityScore := 40 },
         { iD := "T2", dueDate := 777600, urgency := 3, taskTime := 1900, priorityScore := 40 }]
        [{ blockTime := 4000, blockStart := 0, blockEnd := 4000 }] =
      ([{ iD := "T1", dueDate := 777600, urgency := 3, taskTime := 1900, priorityScore := 40 },
        { iD := "T2", dueDate := 777600, urgency := 3, taskTime := 1900, priorityScore := 40 }],
       [{ blockTime := 4000, blockStart := 4400, blockEnd := 4000 }],
       [{ event := "T1", description := "", unixtimeStart := 0, unixtimeEnd := 5900,
          task := 1, completed := 0 },
        { event := "T2", description := "", unixtimeStart := 2200, unixtimeEnd := 5900,
          task := 1, completed := 0 }]) ∧
    (4000 : Int) - 4400 < 0 ∧
    overlaps (0, 5900) (2200, 5900) :=
  ⟨rfl, by decide, by decide⟩

/-- C3 counterexample.  On the end-to-end scenario the scheduling run
creates no event at all - in particular Task A is not placed at
09:00-10:00 - because the single occupied interval produces no free
slot: the store is returned unchanged. -/
theorem scenario_places_nothing :
    scheduleTasks descr0 db3 "14 D" 0 0 = Except.ok db3 ∧ db3.events = [] :=
  ⟨by with_unfolding_all rfl, rfl⟩

/-- C3 as amended.  Task A scores 91, Task B scores 43/2 = 21.5, so A is
scored higher and sorted first; but the merged occupied list is the
single projected block `(28800, 57600)`, the Free-Slot Finder emits no
slot from a one-element list, and the run therefore places neither task
and leaves the store unchanged. -/
theorem scenario_scores_and_no_slots :
    (calculatePriorityScore
        { iD := "A", dueDate := 86400, urgency := 5, taskTime := 3600 } 0).2 = 91 ∧
    (calculatePriorityScore
        { iD := "B", dueDate := 864000, urgency := 2, taskTime := 1800 } 0).2 = 43 / 2 ∧
    (43 / 2 : ℚ) < 91 ∧
    getSchedulingData db3 "14 D" 0 0 =
      Except.ok
        ([{ iD := "A", dueDate := 86400, urgency := 5, taskTime := 3600, priorityScore := 91 },
          { iD := "B", dueDate := 864000, urgency := 2, taskTime := 1800,
            priorityScore := 43 / 2 }],
         [(28800, 57600)]) ∧
    findAvailableTimeSlots [(28800, 57600)] = [] ∧
    scheduleTasks descr0 db3 "14 D" 0 0 = Except.ok db3 :=
  ⟨by with_unfolding_all decide, by with_unfolding_all decide, by with_unfolding_all decide,
   by with_unfolding_all rfl, rfl, by with_unfolding_all rfl⟩

/-- C4.  `scheduleTasks` is exactly the sequence Commitment Merger
(`getSchedulingData`), Free-Slot Finder, Task Assigner, followed by the
write-back; but its body ends without a `return`, so the
`scheduledTasks` list the assigner produces is discarded and the caller
receives `None` - only the updated store survives.  On `db4` the run
does place task T (the assigner's placed list is nonempty and T is
marked scheduled with event `(1300, 2200)` inserted), yet no placed-task
list is returned. -/
theorem scheduleTasks_sequences_and_discards :
    (∀ descr db tf now wd, scheduleTasks descr db tf now wd =
      Except.map
        (fun tb => applyAssignment db
          (assignTasksToSlots descr tb.1 (findAvailableTimeSlots tb.2)))
        (getSchedulingData db tf now wd)) ∧
    (assignTasksToSlots descr0 (giveTasks db4.tasks 0)
        (findAvailableTimeSlots [(0, 1000), (2200, 3000)])).1 =
      [{ iD := "T", dueDate := 777600, urgency := 3, taskTime := 300, priorityScore := 40 }] ∧
    scheduleTasks descr0 db4 "14 D" 0 0 =
      Except.ok
        { tasks := [{ task := "T", unixtime := 300, urgency := 3, scheduled := true,
                      dueDate := 777600, completed := false }],
          events := [{ event := "T", description := "", unixtimeStart := 1300,
                       unixtimeEnd := 2200, task := 1, completed := 0 }],
          blocks := [{ timeStart := 0, timeEnd := 1000 },
                     { timeStart := 2200, timeEnd := 3000 }] } := by
  refine ⟨fun descr db tf now wd => ?_, by with_unfolding_all rfl, by with_unfolding_all rfl⟩
  cases h : getSchedulingData db tf now wd with
  | error e => simp [scheduleTasks, h, Except.map]
  | ok tb => cases tb with
    | mk tasks blocks => simp [scheduleTasks, h, Except.map]

/-- C6 counterexample.  The priority score is negative for a non-urgent
long task due in exactly 7 days; it does not strictly increase in
urgency when overdue escalation saturates (urgency 4 and 5 tie at 100
for a task 100 s overdue); and it does not strictly increase as the due
date approaches within one bucket (100000 s and 90000 s to due tie). -/
theorem priorityScore_claim_fails :
    (calculatePriorityScore { iD := "t", dueDate := 604800, urgency := 1, taskTime := 7201 } 0).2 < 0 ∧
    (calculatePriorityScore { iD := "t", dueDate := -100, urgency := 5, taskTime := 60 } 0).2 =
      (calculatePriorityScore { iD := "t", dueDate := -100, urgency := 4, taskTime := 60 } 0).2 ∧
    (calculatePriorityScore { iD := "t", dueDate := 100000, urgency := 1, taskTime := 60 } 0).2 =
      (calculatePriorityScore { iD := "t", dueDate := 90000, urgency := 1, taskTime := 60 } 0).2 := by
  with_unfolding_all decide

/-- C7 counterexample.  The deadline component of the score at the 2-day,
4-day and 5-day buckets is 85/4 = 21.25, 25/2 = 12.5 and 65/8 = 8.125 -
the literal arithmetic `30 - 35*k/8` - not the 26.25, 7.5 and -1.875 the
claim lists. -/
theorem deadline_bucket_value_differs :
    deadlineComponent 172800 = 85 / 4 ∧ deadlineComponent 172800 ≠ 26.25 ∧
    deadlineComponent 345600 = 25 / 2 ∧ deadlineComponent 345600 ≠ 7.5 ∧
    deadlineComponent 432000 = 65 / 8 ∧ deadlineComponent 432000 ≠ -1.875 := by
  with_unfolding_all decide

/-- C9 counterexample.  The horizon string `"14 D D"` does not have the
literal format `"<integer> D"` (it splits into three tokens), yet
`timeOut` accepts it and a scheduling run with it proceeds without
error. -/
theorem timeOut_accepts_trailing_tokens :
    timeOut "14 D D" = Except.ok 1209600 ∧
    pySplit "14 D D" = ["14", "D", "D"] ∧
    scheduleTasks descr0 { tasks := [], events := [], blocks := [] } "14 D D" 0 0 =
      Except.ok { tasks := [], events := [], blocks := [] } :=
  ⟨by with_unfolding_all rfl, by decide, by with_unfolding_all rfl⟩

/-- C10 counterexample.  For the input list
`[(0, 900), (1000, 0), (5000, 6000)]` - sorted by start and with
`end(i) ≤ start(i+1)` for both adjacent pairs, as the claim requires, but
containing the malformed interval `(1000, 0)` - the Free-Slot Finder
emits the slot spanning 300-4700, which overlaps the occupied interval
`(0, 900)` on the seconds 300-900. -/
theorem slots_overlap_malformed_input :
    List.Chain' (fun a b => a.1 ≤ b.1) [((0 : Int), (900 : Int)), (1000, 0), (5000, 6000)] ∧
    List.Chain' (fun a b => a.2 ≤ b.1) [((0 : Int), (900 : Int)), (1000, 0), (5000, 6000)] ∧
    findAvailableTimeSlots [(0, 900), (1000, 0), (5000, 6000)] =
      [{ blockTime := 4400, blockStart := 300, blockEnd := 4700 }] ∧
    overlaps (300, 4700) (0, 900) := by
  refine ⟨by norm_num [List.chain'_cons], by norm_num [List.chain'_cons], rfl, by decide⟩

/-- C5.  For an overdue task with original urgency 1-5: the escalated
urgency lies between `min 5 (original + 1)` and 5; within each overdue
bucket of `k` days (k = 1..4) the code adds exactly `k` when that stays
within 5 and otherwise writes 5 outright; more than 4 days overdue
forces 5. -/
theorem escalateUrgency_spec (u delta : Int) (hu1 : 1 ≤ u) (hu5 : u ≤ 5)
    (hd : delta < 0) :
    min 5 (u + 1) ≤ escalateUrgency u delta ∧
    escalateUrgency u delta ≤ 5 ∧
    (∀ k : Int, 1 ≤ k → k ≤ 4 → -(86400 * k) ≤ delta → delta < -(86400 * (k - 1)) →
      escalateUrgency u delta = if u + k ≤ 5 then u + k else 5) ∧
    (delta < -345600 → escalateUrgency u delta = 5) := by
  unfold escalateUrgency
  refine ⟨?_, ?_, ?_, ?_⟩
  · split_ifs <;> omega
  · split_ifs <;> omega
  · intro k hk1 hk4 hlo hhi
    interval_cases k <;> split_ifs <;> omega
  · intro h
    split_ifs <;> omega

/-- Witness for C5 at urgency 3, 100000 seconds overdue (the 2-day
bucket): escalation yields 3 + 2 = 5. -/
theorem escalateUrgency_spec_witness :
    min 5 (3 + 1) ≤ escalateUrgency 3 (-100000) ∧ escalateUrgency 3 (-100000) = 5 := by
  have h := escalateUrgency_spec 3 (-100000) (by decide) (by decide) (by decide)
  refine ⟨h.1, ?_⟩
  have h2 := h.2.2.1 2 (by decide) (by decide) (by decide) (by decide)
  rw [h2]
  decide

/-- Score of each deadline bucket is at least -5/8. -/
theorem deadlineComponent_ge (d : Int) : -(5 / 8 : ℚ) ≤ deadlineComponent d := by
  unfold deadlineComponent
  split_ifs <;> norm_num

/-- The urgency component is never negative. -/
theorem urgencyComponent_nonneg (u : Int) : 0 ≤ urgencyComponent u := by
  unfold urgencyComponent
  split_ifs <;> norm_num

/-- The duration bonus is never negative. -/
theorem durationComponent_nonneg (d : Int) : 0 ≤ durationComponent d := by
  unfold durationComponent
  split_ifs <;> norm_num

/-- The urgency component is strictly increasing on levels 1-5. -/
theorem urgencyComponent_strictMono (u1 u2 : Int) (h1 : 1 ≤ u1) (h2 : u1 < u2)
    (h3 : u2 ≤ 5) : urgencyComponent u1 < urgencyComponent u2 := by
  have hu4 : u1 ≤ 4 := by omega
  have hl2 : 2 ≤ u2 := by omega
  interval_cases u1 <;> interval_cases u2 <;> norm_num [urgencyComponent]

set_option maxHeartbeats 1600000 in
theorem deadlineComponent_antitone (d1 d2 : Int) (h0 : 0 ≤ d2) (h21 : d2 ≤ d1)
    (h7 : d1 ≤ 604800) : deadlineComponent d1 ≤ deadlineComponent d2 := by
  unfold deadlineComponent
  split_ifs <;> first | (exfalso; omega) | norm_num

/-- Escalation does not fire for a task that is not overdue. -/
theorem escalateUrgency_of_nonneg (u delta : Int) (h : 0 ≤ delta) :
    escalateUrgency u delta = u := by
  unfold escalateUrgency
  split_ifs <;> omega

/-- The score returned by the scorer is the sum of its three
components, the urgency one taken at the escalated urgency. -/
theorem score_eq (t : TaskDict) (now : Int) :
    (calculatePriorityScore t now).2 =
      deadlineComponent (t.dueDate - now) +
        urgencyComponent (escalateUrgency t.urgency (t.dueDate - now)) +
        durationComponent t.taskTime := rfl

/-- C6 as amended.  The priority score is bounded below by -5/8 but can
be negative; all else fixed, it strictly increases with urgency for
tasks that are not overdue; all else fixed, it weakly (not strictly)
increases as a non-overdue due date within seven days moves closer to
now; and crossing the seven-day boundary breaks even weak monotonicity:
a task due in 604801 seconds outscores the same task due in 604800
seconds. -/
theorem priorityScore_amended :
    (∀ (t : TaskDict) (now : Int), -(5 / 8 : ℚ) ≤ (calculatePriorityScore t now).2) ∧
    (∀ (t : TaskDict) (now u1 u2 : Int), 1 ≤ u1 → u1 < u2 → u2 ≤ 5 →
      0 ≤ t.dueDate - now →
      (calculatePriorityScore { t with urgency := u1 } now).2 <
        (calculatePriorityScore { t with urgency := u2 } now).2) ∧
    (∀ (t : TaskDict) (now d1 d2 : Int), 0 ≤ d2 - now → d2 ≤ d1 →
      d1 - now ≤ 604800 →
      (calculatePriorityScore { t with dueDate := d1 } now).2 ≤
        (calculatePriorityScore { t with dueDate := d2 } now).2) ∧
    (∀ (t : TaskDict) (now : Int), t.dueDate - now = 604800 →
      (calculatePriorityScore t now).2 <
        (calculatePriorityScore { t with dueDate := t.dueDate + 1 } now).2) := by
  refine ⟨?_, ?_, ?_, ?_⟩
  · intro t now
    rw [score_eq]
    have h1 := deadlineComponent_ge (t.dueDate - now)
    have h2 := urgencyComponent_nonneg (escalateUrgency t.urgency (t.dueDate - now))
    have h3 := durationComponent_nonneg t.taskTime
    linarith
  · intro t now u1 u2 h1 h2 h3 hnd
    rw [score_eq, score_eq]
    simp only
    rw [escalateUrgency_of_nonneg u1 _ hnd, escalateUrgency_of_nonneg u2 _ hnd]
    have := urgencyComponent_strictMono u1 u2 h1 h2 h3
    linarith
  · intro t now d1 d2 h0 h21 h7
    rw [score_eq, score_eq]
    simp only
    rw [escalateUrgency_of_nonneg _ _ h0, escalateUrgency_of_nonneg _ _ (by omega)]
    have := deadlineComponent_antitone (d1 - now) (d2 - now) h0 (by omega) h7
    linarith
  · intro t now hd
    rw [score_eq, score_eq]
    simp only
    have he : t.dueDate + 1 - now = 604801 := by omega
    rw [hd, he]
    rw [escalateUrgency_of_nonneg _ _ (by omega), escalateUrgency_of_nonneg _ _ (by omega)]
    have h1 : deadlineComponent 604800 = 30 - 245 / 8 := by
      unfold deadlineComponent
      split_ifs <;> first | (exfalso; omega) | norm_num
    have h2 : deadlineComponent 604801 = 0 := by
      unfold deadlineComponent
      split_ifs <;> first | (exfalso; omega) | norm_num
    rw [h1, h2]
    norm_num

/-- Witness for C6 as amended: the bound holds at the task scoring
exactly -5/8, and urgency 2 beats urgency 1 on a task due now. -/
theorem priorityScore_amended_witness :
    -(5 / 8 : ℚ) ≤
      (calculatePriorityScore { iD := "w", dueDate := 604800, urgency := 1, taskTime := 7201 } 0).2 ∧
    (calculatePriorityScore { iD := "w", dueDate := 0, urgency := 1, taskTime := 60 } 0).2 <
      (calculatePriorityScore { iD := "w", dueDate := 0, urgency := 2, taskTime := 60 } 0).2 := by
  constructor
  · exact priorityScore_amended.1 _ 0
  · exact priorityScore_amended.2.1
      { iD := "w", dueDate := 0, urgency := 1, taskTime := 60 } 0 1 2
      (by decide) (by decide) (by decide) (by decide)

/-- C7 as amended.  The deadline component is a step function with
boundaries at 86400 k for k = 1..7: 35 points up to one day, then the
literal arithmetic `30 - 35*k/8` for the k-th day bucket (21.25, 16.875,
12.5, 8.125, 3.75, -0.625 for k = 2..7), and 0 beyond seven days. -/
theorem deadlineComponent_buckets :
    (∀ d : Int, d ≤ 86400 → deadlineComponent d = 35) ∧
    (∀ d k : Int, 2 ≤ k → k ≤ 7 → 86400 * (k - 1) < d → d ≤ 86400 * k →
      deadlineComponent d = 30 - 35 * (k : ℚ) / 8) ∧
    (∀ d : Int, 604800 < d → deadlineComponent d = 0) := by
  refine ⟨?_, ?_, ?_⟩
  · intro d hd
    unfold deadlineComponent
    split_ifs <;> first | (exfalso; omega) | norm_num
  · intro d k hk2 hk7 hlo hhi
    interval_cases k <;>
      (unfold deadlineComponent; split_ifs <;> first | (exfalso; omega) | norm_num)
  · intro d hd
    unfold deadlineComponent
    split_ifs <;> first | (exfalso; omega) | norm_num

/-- Witness for C7 as amended, at the 2-day bucket: the component at
172800 seconds is 30 - 35*2/8 = 21.25, the value the formula gives. -/
theorem deadlineComponent_buckets_witness :
    deadlineComponent 172800 = 85 / 4 := by
  have h := deadlineComponent_buckets.2.1 172800 2 (by decide) (by decide) (by decide) (by decide)
  rw [h]
  norm_num

/-- C8.  On a chronologically sorted occupied-interval list the
Free-Slot Finder produces exactly the slots described by the spec: one
slot of duration `delta - 600` spanning `(end(i) + 300, start(i+1) - 300)`
for each adjacent pair with gap `delta > 600`, none for smaller gaps, and
nothing outside the adjacent pairs - in particular no slot before the
first interval or after the last. -/
theorem findSlots_eq_gapSpec (blocks : List (Int × Int))
    (hsorted : List.Chain' (fun a b => a.1 ≤ b.1) blocks) :
    findAvailableTimeSlots blocks = slotsFromGapsSpec blocks := by
  induction blocks with
  | nil => rfl
  | cons a t ih =>
    cases t with
    | nil => rfl
    | cons b rest =>
      have hrec := ih hsorted.tail
      by_cases h : b.1 - a.2 > 600 <;>
        simp [findAvailableTimeSlots, slotsFromGapsSpec, h, List.filterMap_cons] <;>
        simpa [slotsFromGapsSpec] using hrec

/-- Witness for C8: two commitments separated by a 1200 s gap produce
exactly one slot, of duration 600 s, spanning 1300-1900. -/
theorem findSlots_eq_gapSpec_witness :
    findAvailableTimeSlots [((0 : Int), (1000 : Int)), (2200, 3000)] =
      slotsFromGapsSpec [((0 : Int), (1000 : Int)), (2200, 3000)] ∧
    findAvailableTimeSlots [((0 : Int), (1000 : Int)), (2200, 3000)] =
      [{ blockTime := 600, blockStart := 1300, blockEnd := 1900 }] :=
  ⟨findSlots_eq_gapSpec _ (by norm_num [List.chain'_cons]), rfl⟩

/-- A horizon string whose second space-separated token is missing or
differs from `"D"` makes `timeOut` raise: `time[1]` fails with
`IndexError` or the final `else` raises, in both cases before `int()` is
ever reached. -/
theorem timeOut_rejects (s : String) (h : (pySplit s)[1]? ≠ some "D") :
    ∃ e, timeOut s = Except.error e := by
  unfold timeOut
  cases hm : (pySplit s)[1]? with
  | none => exact ⟨.indexError, by simp [hm]⟩
  | some u =>
    have hu : ¬ (u = "D") := fun he => h (by rw [hm, he])
    exact ⟨.invalidTimeFormat, by simp [hm, hu]⟩

/-- C9 as amended.  A horizon string whose second space-separated token
is missing or is not `"D"` (any other unit suffix in particular) makes
the scheduling run fail before any slot is computed or any write
happens: the code raises before it ever calls `int()` on the first
token, and `scheduleTasks` propagates the error and returns no updated
store.  (Strings with extra tokens after `"<integer> D"` are
nevertheless accepted, so the rejection does not cover every string
outside the literal format.) -/
theorem horizon_reject_no_run (descr : ScoredTask → String) (db : DB)
    (s : String) (now wd : Int) (h : (pySplit s)[1]? ≠ some "D") :
    ∃ e, scheduleTasks descr db s now wd = Except.error e := by
  obtain ⟨e, he⟩ := timeOut_rejects s h
  exact ⟨e, by simp [scheduleTasks, getSchedulingData, giveEvents, he]⟩

/-- Witness for C9 as amended: the unit suffix `"H"` aborts the run. -/
theorem horizon_reject_no_run_witness :
    (pySplit "14 H")[1]? ≠ some "D" ∧
    (∃ e, scheduleTasks descr0 { tasks := [], events := [], blocks := [] } "14 H" 0 0 =
      Except.error e) :=
  ⟨by decide,
   horizon_reject_no_run descr0 { tasks := [], events := [], blocks := [] } "14 H" 0 0
     (by decide)⟩

/-- Every element after the head of a separated, well-formed interval
list starts no earlier than the head ends. -/
theorem after_head (x : Int × Int) (xs : List (Int × Int))
    (hsep : List.Chain' (fun a b => a.2 ≤ b.1) (x :: xs))
    (hwf : ∀ p ∈ x :: xs, p.1 ≤ p.2) :
    ∀ p ∈ xs, x.2 ≤ p.1 := by
  induction xs generalizing x with
  | nil => simp
  | cons y ys ih =>
    intro p hp
    have hxy : x.2 ≤ y.1 := (List.chain'_cons.mp hsep).1
    rcases List.mem_cons.mp hp with rfl | hp'
    · exact hxy
    · have hy : y.1 ≤ y.2 := hwf y (by simp)
      have := ih y (List.chain'_cons.mp hsep).2
        (fun q hq => hwf q (List.mem_cons_of_mem _ hq)) p hp'
      omega

/-- Every slot the finder emits from a separated, well-formed list
starts at least 300 seconds after the head interval ends. -/
theorem slots_start_lb (x : Int × Int) (xs : List (Int × Int))
    (hsep : List.Chain' (fun a b => a.2 ≤ b.1) (x :: xs))
    (hwf : ∀ p ∈ x :: xs, p.1 ≤ p.2) :
    ∀ s ∈ findAvailableTimeSlots (x :: xs), x.2 + 300 ≤ s.blockStart := by
  induction xs generalizing x with
  | nil => intro s hs; simp [findAvailableTimeSlots] at hs
  | cons y ys ih =>
    intro s hs
    have hs2 : s ∈ (if y.1 - x.2 > 600 then
        [{ blockTime := y.1 - x.2 - 600, blockStart := x.2 + 300,
           blockEnd := y.1 - 300 }]
      else []) ++ findAvailableTimeSlots (y :: ys) := hs
    rcases List.mem_append.mp hs2 with h1 | h2
    · by_cases hc : y.1 - x.2 > 600
      · rw [if_pos hc] at h1
        simp at h1
        subst h1
        exact le_rfl
      · rw [if_neg hc] at h1
        simp at h1
    · have hxy : x.2 ≤ y.1 := (List.chain'_cons.mp hsep).1
      have hy : y.1 ≤ y.2 := hwf y (by simp)
      have := ih y (List.chain'_cons.mp hsep).2
        (fun q hq => hwf q (List.mem_cons_of_mem _ hq)) s h2
      omega

/-- On a separated, well-formed interval list no emitted slot overlaps
any interval of the list. -/
theorem slots_no_overlap (l : List (Int × Int))
    (hsep : List.Chain' (fun a b => a.2 ≤ b.1) l)
    (hwf : ∀ p ∈ l, p.1 ≤ p.2) :
    ∀ s ∈ findAvailableTimeSlots l, ∀ p ∈ l,
      ¬ overlaps (s.blockStart, s.blockEnd) p := by
  induction l with
  | nil => intro s hs; simp [findAvailableTimeSlots] at hs
  | cons a t ih =>
    cases t with
    | nil => intro s hs; simp [findAvailableTimeSlots] at hs
    | cons b rest =>
      intro s hs p hp
      have hab : a.2 ≤ b.1 := (List.chain'_cons.mp hsep).1
      have hwftail : ∀ q ∈ b :: rest, q.1 ≤ q.2 :=
        fun q hq => hwf q (List.mem_cons_of_mem _ hq)
      have hs2 : s ∈ (if b.1 - a.2 > 600 then
          [{ blockTime := b.1 - a.2 - 600, blockStart := a.2 + 300,
             blockEnd := b.1 - 300 }]
        else []) ++ findAvailableTimeSlots (b :: rest) := hs
      rcases List.mem_append.mp hs2 with h1 | h2
      · by_cases hc : b.1 - a.2 > 600
        · rw [if_pos hc] at h1
          simp at h1
          subst h1
          simp only [overlaps]
          rcases List.mem_cons.mp hp with rfl | hp'
          · omega
          · rcases List.mem_cons.mp hp' with rfl | hp2
            · omega
            · have hbp : b.2 ≤ p.1 := after_head b rest hsep.tail hwftail p hp2
              have hb : b.1 ≤ b.2 := hwf b (by simp)
              omega
        · rw [if_neg hc] at h1
          simp at h1
      · rcases List.mem_cons.mp hp with rfl | hp'
        · have hlb := slots_start_lb b rest hsep.tail hwftail s h2
          have hpw : p.1 ≤ p.2 := hwf p (by simp)
          have hb : b.1 ≤ b.2 := hwftail b (by simp)
          simp only [overlaps]
          omega
        · exact ih hsep.tail hwftail s h2 p hp'

/-- The slots the finder emits from a separated, well-formed list are
pairwise disjoint and chronological: each one ends no later than every
later one starts. -/
theorem slots_pairwise (l : List (Int × Int))
    (hsep : List.Chain' (fun a b => a.2 ≤ b.1) l)
    (hwf : ∀ p ∈ l, p.1 ≤ p.2) :
    List.Pairwise (fun s t => s.blockEnd ≤ t.blockStart)
      (findAvailableTimeSlots l) := by
  induction l with
  | nil => simp [findAvailableTimeSlots]
  | cons a t ih =>
    cases t with
    | nil => simp [findAvailableTimeSlots]
    | cons b rest =>
      have hwftail : ∀ q ∈ b :: rest, q.1 ≤ q.2 :=
        fun q hq => hwf q (List.mem_cons_of_mem _ hq)
      have hb : b.1 ≤ b.2 := hwftail b (by simp)
      rw [show findAvailableTimeSlots (a :: b :: rest) =
        (if b.1 - a.2 > 600 then
          [{ blockTime := b.1 - a.2 - 600, blockStart := a.2 + 300,
             blockEnd := b.1 - 300 }]
        else []) ++ findAvailableTimeSlots (b :: rest) from rfl]
      refine List.pairwise_append.mpr ⟨?_, ih hsep.tail hwftail, ?_⟩
      · split_ifs <;> simp
      · intro x hx y hy
        have hylb := slots_start_lb b rest hsep.tail hwftail y hy
        by_cases hc : b.1 - a.2 > 600
        · rw [if_pos hc] at hx
          simp at hx
          subst hx
          simp only
          omega
        · rw [if_neg hc] at hx
          simp at hx

/-- Duration bookkeeping of every emitted slot: `blockTime` equals
`blockEnd - blockStart` and is strictly positive. -/
theorem slots_duration (l : List (Int × Int)) :
    ∀ s ∈ findAvailableTimeSlots l,
      s.blockTime = s.blockEnd - s.blockStart ∧ 0 < s.blockTime := by
  induction l with
  | nil => intro s hs; simp [findAvailableTimeSlots] at hs
  | cons a t ih =>
    cases t with
    | nil => intro s hs; simp [findAvailableTimeSlots] at hs
    | cons b rest =>
      intro s hs
      have hs2 : s ∈ (if b.1 - a.2 > 600 then
          [{ blockTime := b.1 - a.2 - 600, blockStart := a.2 + 300,
             blockEnd := b.1 - 300 }]
        else []) ++ findAvailableTimeSlots (b :: rest) := hs
      rcases List.mem_append.mp hs2 with h1 | h2
      · by_cases hc : b.1 - a.2 > 600
        · rw [if_pos hc] at h1
          simp at h1
          subst h1
          constructor
          · simp only
            omega
          · simp only
            omega
        · rw [if_neg hc] at h1
          simp at h1
      · exact ih s h2

/-- C10 as amended.  For an input list sorted by start, pairwise
separated (`end(i) ≤ start(i+1)`), and consisting of well-formed
intervals (`start ≤ end` - without this the claim fails, see the
counterexample): every emitted slot stores `blockTime = blockEnd -
blockStart > 0`, the emitted slots are pairwise disjoint and
chronological, and no emitted slot overlaps any occupied interval. -/
theorem findSlots_invariants (l : List (Int × Int))
    (hstart : List.Chain' (fun a b => a.1 ≤ b.1) l)
    (hsep : List.Chain' (fun a b => a.2 ≤ b.1) l)
    (hwf : ∀ p ∈ l, p.1 ≤ p.2) :
    (∀ s ∈ findAvailableTimeSlots l,
      s.blockTime = s.blockEnd - s.blockStart ∧ 0 < s.blockTime) ∧
    List.Pairwise (fun s t => s.blockEnd ≤ t.blockStart)
      (findAvailableTimeSlots l) ∧
    (∀ s ∈ findAvailableTimeSlots l, ∀ p ∈ l,
      ¬ overlaps (s.blockStart, s.blockEnd) p) :=
  ⟨slots_duration l, slots_pairwise l hsep hwf, slots_no_overlap l hsep hwf⟩

/-- Witness for C10 as amended, on two well-formed commitments with a
1200 s gap. -/
theorem findSlots_invariants_witness :
    List.Pairwise (fun s t => s.blockEnd ≤ t.blockStart)
      (findAvailableTimeSlots [((0 : Int), (1000 : Int)), (2200, 3000)]) ∧
    (∀ s ∈ findAvailableTimeSlots [((0 : Int), (1000 : Int)), (2200, 3000)],
      s.blockTime = s.blockEnd - s.blockStart ∧ 0 < s.blockTime) :=
  ⟨(findSlots_invariants _ (by norm_num [List.chain'_cons])
      (by norm_num [List.chain'_cons]) (by decide)).2.1,
   (findSlots_invariants _ (by norm_num [List.chain'_cons])
      (by norm_num [List.chain'_cons]) (by decide)).1⟩

end LifeORGS
